import Mathlib

/-!
Verification of the extended-palette inference core of the `theme` repository.

The embedded code lives in:
* `src/analysis/extended-palette/generate_extended_rules.py`   (namespace `GenRules`)
* `src/scripts/generate_all_extended.py`                       (namespace `GenAll`)
* `src/analysis/extended-palette/generate_extended_palette.py` (namespace `NN`)
* `src/analysis/extended-palette/analyze_decision_boundaries.py` (namespace `Boundaries`)
* `src/analysis/extended-palette/analyze_mapping_features.py`  (namespace `MapFeat`)

Modelling conventions, shared by every embedded function:

* Python dicts of hex colors become `Base16 := String → Option String`;
  `dict.get(k, d)` becomes `(b k).getD d`.  Output dicts (which the scripts
  build by inserting distinct keys in a fixed order) become association lists
  in insertion order.
* A Python function that can raise (`int(...)` on malformed input) returns
  `Option`; `none` models the exception propagating out of the translated
  expression.
* All color arithmetic is exact rational arithmetic (`ℚ`).  The sources
  compute Euclidean RGB distances with `** 0.5`; since every use of a
  distance either compares it with a nonnegative constant threshold or with
  another distance, and squaring is strictly monotone on nonnegatives, the
  embedding carries the *squared* distance and squares the thresholds.
  (The float thresholds such as `112.3` are carried as the exact rationals
  `1123/10`; for integer squared distances the branch taken is identical to
  the float computation because the nearest integers to each squared
  threshold are separated from it by far more than double-precision error.)
* `colorsys.rgb_to_hls` is pure rational arithmetic and is embedded exactly;
  Python's `% 1.0` on the hue is `Int.fract`.  Python evaluates it in binary
  floating point while this embedding is exact; a hue/saturation comparison
  could in principle resolve differently within a float rounding error of a
  threshold, and no theorem below depends on which branch such a comparison
  takes.
* Python's `int(s, 16)` is embedded for the at-most-two-character slices that
  `hex_to_rgb` feeds it: optional surrounding ASCII whitespace, an optional
  sign, then hex digits (either case) separated by single underscores.
  (The `0x` prefix needs at least three characters and therefore cannot occur
  in a two-character slice; exotic Unicode digits and spaces are not
  modelled, and no claim below depends on them.)
-/

/-- ASCII whitespace stripped by Python's `int` (and `str.strip`). -/
def isPySpace (c : Char) : Bool :=
  c.toNat = 32 || c.toNat = 9 || c.toNat = 10 || c.toNat = 13 ||
    c.toNat = 11 || c.toNat = 12

/-- Value of a hex digit, either case, as accepted by `int(_, 16)`. -/
def hexDigitVal (c : Char) : Option Nat :=
  if 48 ≤ c.toNat ∧ c.toNat ≤ 57 then some (c.toNat - 48)
  else if 97 ≤ c.toNat ∧ c.toNat ≤ 102 then some (c.toNat - 87)
  else if 65 ≤ c.toNat ∧ c.toNat ≤ 70 then some (c.toNat - 55)
  else none

/-- A character is a hex digit exactly when `hexDigitVal` accepts it. -/
def isHexDigit (c : Char) : Bool :=
  (hexDigitVal c).isSome

/-- After the first digit, `int(_, 16)` accepts digits separated by single
underscores (an underscore must be followed by a digit). -/
def hexTailOk : List Char → Bool
  | [] => true
  | c :: rest =>
    if c = '_' then
      match rest with
      | [] => false
      | d :: rest2 => (hexDigitVal d).isSome && hexTailOk rest2
    else (hexDigitVal c).isSome && hexTailOk rest

/-- The digit part of `int(_, 16)`: nonempty, starts with a digit. -/
def hexDigitsOk : List Char → Bool
  | [] => false
  | c :: rest => (hexDigitVal c).isSome && hexTailOk rest

/-- Numeric value of a digit string, ignoring underscores. -/
def hexValue (cs : List Char) : Nat :=
  (cs.filter (fun c => ¬ c = '_')).foldl
    (fun a c => 16 * a + ((hexDigitVal c).getD 0)) 0

/-- Strip surrounding ASCII whitespace, as `int` does. -/
def stripPySpaces (l : List Char) : List Char :=
  ((l.dropWhile isPySpace).reverse.dropWhile isPySpace).reverse

/-- Python's `int(s, 16)` on a short string: `none` models `ValueError`. -/
def pyIntHex (s : List Char) : Option Int :=
  match stripPySpaces s with
  | [] => none
  | c :: ds =>
    if c = '+' then
      if hexDigitsOk ds then some (hexValue ds : Int) else none
    else if c = '-' then
      if hexDigitsOk ds then some (-(hexValue ds : Int)) else none
    else
      if hexDigitsOk (c :: ds) then some (hexValue (c :: ds) : Int) else none

/-- `hex_to_rgb` (identical copies in all five scripts):
strip the leading `#`s, lowercase, parse the three slices `[0:2]`, `[2:4]`,
`[4:6]` with `int(_, 16)`.  `none` models the `ValueError` raised on a slice
that fails to parse (notably an empty slice when fewer than five characters
remain after stripping). -/
def hex_to_rgb (s : String) : Option (Int × Int × Int) :=
  let cs := (s.toList.dropWhile (fun c => c = '#')).map Char.toLower
  match pyIntHex ((cs.drop 0).take 2), pyIntHex ((cs.drop 2).take 2),
      pyIntHex ((cs.drop 4).take 2) with
  | some r, some g, some b => some (r, g, b)
  | _, _, _ => none

/-- Squared Euclidean RGB distance between parsed colors (the sources compute
the square root; see the header for why the square is carried instead). -/
def distSq (a b : Int × Int × Int) : ℚ :=
  (((a.1 - b.1) ^ 2 + (a.2.1 - b.2.1) ^ 2 + (a.2.2 - b.2.2) ^ 2 : Int) : ℚ)

/-- `color_distance` of the sources, squared; `none` models the `ValueError`
propagating out of `hex_to_rgb` on malformed input. -/
def color_distance_sq (c1 c2 : String) : Option ℚ :=
  match hex_to_rgb c1, hex_to_rgb c2 with
  | some a, some b => some (distSq a b)
  | _, _ => none

/-- `colorsys.rgb_to_hls`, embedded exactly over `ℚ`
(returns `(h, l, s)`; Python's `% 1.0` is `Int.fract`). -/
def rgb_to_hls (r g b : ℚ) : ℚ × ℚ × ℚ :=
  let maxc := max r (max g b)
  let minc := min r (min g b)
  let sumc := maxc + minc
  let rangec := maxc - minc
  let l := sumc / 2
  if minc = maxc then (0, l, 0)
  else
    let s := if l ≤ 1 / 2 then rangec / sumc else rangec / (2 - sumc)
    let rc := (maxc - r) / rangec
    let gc := (maxc - g) / rangec
    let bc := (maxc - b) / rangec
    let h := if r = maxc then bc - gc
      else if g = maxc then rc - bc
      else 2 + gc - rc
    (Int.fract (h / 6), l, s)

/-- The `(hue, sat, light)` triple returned by `hex_to_hsl` for an already
parsed color: `h*360, s*100, l*100`. -/
def hslTriple (c : Int × Int × Int) : ℚ × ℚ × ℚ :=
  let hls := rgb_to_hls ((c.1 : ℚ) / 255) ((c.2.1 : ℚ) / 255) ((c.2.2 : ℚ) / 255)
  (hls.1 * 360, hls.2.2 * 100, hls.2.1 * 100)

/-- `hex_to_hsl` of the sources. -/
def hex_to_hsl (s : String) : Option (ℚ × ℚ × ℚ) :=
  (hex_to_rgb s).map hslTriple

/-- Python's `str.lower()` on a color string, as a character map (ASCII
lowercasing; `String.toLower` computes the same map, but this list-based
form also reduces inside the kernel). -/
def pyLower (s : String) : String :=
  ⟨s.toList.map Char.toLower⟩

/-- The 16 base16 slot names, in the order every script lists them. -/
def slotKeys : List String :=
  ["base00", "base01", "base02", "base03", "base04", "base05",
   "base06", "base07", "base08", "base09", "base0A", "base0B",
   "base0C", "base0D", "base0E", "base0F"]

/-- A `base16` dict: slot name to hex string, possibly missing slots. -/
def Base16 : Type := String → Option String

/-- Build a `Base16` from an association list (a parsed YAML mapping). -/
def mkBase16 (l : List (String × String)) : Base16 :=
  fun k => l.lookup k

/-- `base16.get(k, '#000000')`, the read used by every feature extractor. -/
def getSlot (b : Base16) (k : String) : String :=
  (b k).getD "#000000"

/-- A well-formed color string: after stripping the leading `#`s, exactly six
hex digits (the spec's "6-hex-digit RGB color string"). -/
def wellFormedColor (s : String) : Bool :=
  let cs := s.toList.dropWhile (fun c => c = '#')
  cs.length = 6 && cs.all isHexDigit

/-- A valid 16-slot palette: all 16 slots present and well-formed. -/
def validPalette (b : Base16) : Bool :=
  slotKeys.all fun k =>
    match b k with
    | some v => wellFormedColor v
    | none => false

/-- All slots that are present are well-formed (a partial palette). -/
def presentWellFormed (b : Base16) : Bool :=
  slotKeys.all fun k =>
    match b k with
    | some v => wellFormedColor v
    | none => true

/-- Replace every absent slot by `'#000000'`: the palette the generator
effectively reads through its `get(k, '#000000')` accesses. -/
def totalize (b : Base16) : Base16 :=
  fun k => some ((b k).getD "#000000")

namespace GenRules

/-- The feature dict of `extract_features` in `generate_extended_rules.py`.
Distance components carry the squared distance (see file header). -/
structure Features where
  dist_0B_0C_sq : ℚ
  dist_09_0A_sq : ℚ
  dist_0D_0C_sq : ℚ
  dist_0D_0E_sq : ℚ
  hue_0B : ℚ
  hue_0C : ℚ
  hue_0D : ℚ
  sat_08 : ℚ
  sat_0B : ℚ
  sat_0B_vs_0C : ℚ
  sat_09_vs_0A : ℚ
deriving Repr, DecidableEq

/-- `extract_features` of `generate_extended_rules.py`.  The source first
builds `colors` (all 16 slots through `get(k, '#000000')`) and `hsl`
(`hex_to_hsl` of every one of the 16, so a malformed color in *any* slot
raises), then reads off the features; here each of the 16 slots is parsed
once and the pure HSL/distance arithmetic is applied to the parsed triples,
which is the same computation. -/
def extract_features (b : Base16) : Option Features :=
  match hex_to_rgb (getSlot b "base00"), hex_to_rgb (getSlot b "base01"),
      hex_to_rgb (getSlot b "base02"), hex_to_rgb (getSlot b "base03"),
      hex_to_rgb (getSlot b "base04"), hex_to_rgb (getSlot b "base05"),
      hex_to_rgb (getSlot b "base06"), hex_to_rgb (getSlot b "base07"),
      hex_to_rgb (getSlot b "base08"), hex_to_rgb (getSlot b "base09"),
      hex_to_rgb (getSlot b "base0A"), hex_to_rgb (getSlot b "base0B"),
      hex_to_rgb (getSlot b "base0C"), hex_to_rgb (getSlot b "base0D"),
      hex_to_rgb (getSlot b "base0E"), hex_to_rgb (getSlot b "base0F") with
  | some _c00, some _c01, some _c02, some _c03, some _c04, some _c05,
    some _c06, some _c07, some c08, some c09, some c0A, some c0B,
    some c0C, some c0D, some c0E, some _c0F =>
    some
    { dist_0B_0C_sq := distSq c0B c0C
      dist_09_0A_sq := distSq c09 c0A
      dist_0D_0C_sq := distSq c0D c0C
      dist_0D_0E_sq := distSq c0D c0E
      hue_0B := (hslTriple c0B).1
      hue_0C := (hslTriple c0C).1
      hue_0D := (hslTriple c0D).1
      sat_08 := (hslTriple c08).2.1
      sat_0B := (hslTriple c0B).2.1
      sat_0B_vs_0C := (hslTriple c0B).2.1 - (hslTriple c0C).2.1
      sat_09_vs_0A := (hslTriple c09).2.1 - (hslTriple c0A).2.1 }
  | _, _, _, _, _, _, _, _, _, _, _, _, _, _, _, _ => none

/-- The local helper `get` of `generate_extended_rules`:
`base16.get(name, '#000000').lower()`. -/
def get (b : Base16) (name : String) : String :=
  pyLower ((b name).getD "#000000")

/-- The `extended` dict built by `generate_extended_rules`, in insertion
order, given the already extracted features.  Each distance threshold is
squared (`84.0 → 84²`, `112.3 → (1123/10)²`, `49.9 → (499/10)²`,
`154.3 → (1543/10)²`); hue/saturation thresholds are carried as exact
rationals. -/
def extendedList (b : Base16) (feat : Features) : List (String × String) :=
  [("diagnostic_error", get b "base08"),
   ("diagnostic_ok", get b "base0B"),
   ("diagnostic_warning",
     if feat.dist_0B_0C_sq > (84 : ℚ) ^ 2 then get b "base09" else get b "base0A"),
   ("diagnostic_info",
     if feat.sat_08 > (761 : ℚ) / 10 then get b "base0D" else get b "base0C"),
   ("diagnostic_hint",
     if feat.dist_0B_0C_sq < ((1123 : ℚ) / 10) ^ 2 then get b "base0C" else get b "base0E"),
   ("syntax_comment",
     if feat.dist_0D_0C_sq > ((499 : ℚ) / 10) ^ 2 then get b "base03" else get b "base04"),
   ("syntax_string",
     if feat.dist_0B_0C_sq < ((1123 : ℚ) / 10) ^ 2 then get b "base0B" else get b "base0C"),
   ("syntax_function",
     if feat.dist_0D_0C_sq > ((499 : ℚ) / 10) ^ 2 then get b "base0D" else get b "base09"),
   ("syntax_keyword",
     if feat.dist_0B_0C_sq < ((1123 : ℚ) / 10) ^ 2 then get b "base0E" else get b "base0B"),
   ("syntax_type",
     if feat.sat_08 > (696 : ℚ) / 10 then get b "base0A" else get b "base0C"),
   ("syntax_number",
     if feat.hue_0B < (1042 : ℚ) / 10 then get b "base0E" else get b "base09"),
   ("syntax_constant",
     if feat.hue_0B > (853 : ℚ) / 10 then get b "base09" else get b "base0A"),
   ("syntax_operator", get b "base04"),
   ("syntax_variable", get b "base05"),
   ("syntax_parameter", get b "base0D"),
   ("syntax_preproc", get b "base0E"),
   ("syntax_special", get b "base0C"),
   ("ui_accent",
     if feat.sat_08 > (696 : ℚ) / 10 then get b "base0D" else get b "base0C"),
   ("ui_border",
     if feat.sat_08 > (696 : ℚ) / 10 then get b "base02" else get b "base03"),
   ("ui_selection", get b "base02"),
   ("ui_float_bg", get b "base01"),
   ("ui_cursor_line", get b "base01"),
   ("git_add", get b "base0B"),
   ("git_change",
     if feat.dist_0B_0C_sq < ((1543 : ℚ) / 10) ^ 2 then get b "base0A" else get b "base09"),
   ("git_delete", get b "base08")]

/-- `generate_extended_rules(base16)`: extract the features, then build the
extended dict; `none` models the `ValueError` raised while extracting
features from a malformed palette. -/
def generate_extended_rules (b : Base16) : Option (List (String × String)) :=
  (extract_features b).map (extendedList b)

/-- Read one field of a generated extended palette. -/
def extField (o : Option (List (String × String))) (k : String) : Option String :=
  o.bind fun l => l.lookup k

/-- The 25 standard extended field names, in the generator's insertion
order. -/
def extendedFieldOrder : List String :=
  ["diagnostic_error", "diagnostic_ok", "diagnostic_warning", "diagnostic_info",
   "diagnostic_hint", "syntax_comment", "syntax_string", "syntax_function",
   "syntax_keyword", "syntax_type", "syntax_number", "syntax_constant",
   "syntax_operator", "syntax_variable", "syntax_parameter", "syntax_preproc",
   "syntax_special", "ui_accent", "ui_border", "ui_selection", "ui_float_bg",
   "ui_cursor_line", "git_add", "git_change", "git_delete"]

end GenRules

namespace GenAll

/-- The feature dict of `extract_features` in `generate_all_extended.py`
(the production script extracts only the four features its rules use).
Distance components carry the squared distance (see file header). -/
structure Features where
  dist_0B_0C_sq : ℚ
  dist_0D_0C_sq : ℚ
  hue_0B : ℚ
  sat_08 : ℚ
deriving Repr, DecidableEq

/-- `extract_features` of `generate_all_extended.py`: as in
`GenRules.extract_features`, all 16 slots are read through
`get(k, '#000000')` and parsed (the source computes `hex_to_hsl` of every
slot), so a malformed color anywhere makes the whole call raise. -/
def extract_features (b : Base16) : Option Features :=
  match hex_to_rgb (getSlot b "base00"), hex_to_rgb (getSlot b "base01"),
      hex_to_rgb (getSlot b "base02"), hex_to_rgb (getSlot b "base03"),
      hex_to_rgb (getSlot b "base04"), hex_to_rgb (getSlot b "base05"),
      hex_to_rgb (getSlot b "base06"), hex_to_rgb (getSlot b "base07"),
      hex_to_rgb (getSlot b "base08"), hex_to_rgb (getSlot b "base09"),
      hex_to_rgb (getSlot b "base0A"), hex_to_rgb (getSlot b "base0B"),
      hex_to_rgb (getSlot b "base0C"), hex_to_rgb (getSlot b "base0D"),
      hex_to_rgb (getSlot b "base0E"), hex_to_rgb (getSlot b "base0F") with
  | some _c00, some _c01, some _c02, some _c03, some _c04, some _c05,
    some _c06, some _c07, some c08, some _c09, some _c0A, some c0B,
    some c0C, some c0D, some _c0E, some _c0F =>
    some
    { dist_0B_0C_sq := distSq c0B c0C
      dist_0D_0C_sq := distSq c0D c0C
      hue_0B := (hslTriple c0B).1
      sat_08 := (hslTriple c08).2.1 }
  | _, _, _, _, _, _, _, _, _, _, _, _, _, _, _, _ => none

/-- The local helper `get` of `generate_extended`:
`base16.get(name, '#000000').lower()`. -/
def get (b : Base16) (name : String) : String :=
  pyLower ((b name).getD "#000000")

/-- The `extended` dict built by `generate_extended`, in insertion order,
given the extracted features.  Thresholds are squared exactly as in
`GenRules.extendedList` (both scripts encode the same frozen rule set). -/
def extendedList (b : Base16) (feat : Features) : List (String × String) :=
  [("diagnostic_error", get b "base08"),
   ("diagnostic_ok", get b "base0B"),
   ("diagnostic_warning",
     if feat.dist_0B_0C_sq > (84 : ℚ) ^ 2 then get b "base09" else get b "base0A"),
   ("diagnostic_info",
     if feat.sat_08 > (761 : ℚ) / 10 then get b "base0D" else get b "base0C"),
   ("diagnostic_hint",
     if feat.dist_0B_0C_sq < ((1123 : ℚ) / 10) ^ 2 then get b "base0C" else get b "base0E"),
   ("syntax_comment",
     if feat.dist_0D_0C_sq > ((499 : ℚ) / 10) ^ 2 then get b "base03" else get b "base04"),
   ("syntax_string",
     if feat.dist_0B_0C_sq < ((1123 : ℚ) / 10) ^ 2 then get b "base0B" else get b "base0C"),
   ("syntax_function",
     if feat.dist_0D_0C_sq > ((499 : ℚ) / 10) ^ 2 then get b "base0D" else get b "base09"),
   ("syntax_keyword",
     if feat.dist_0B_0C_sq < ((1123 : ℚ) / 10) ^ 2 then get b "base0E" else get b "base0B"),
   ("syntax_type",
     if feat.sat_08 > (696 : ℚ) / 10 then get b "base0A" else get b "base0C"),
   ("syntax_number",
     if feat.hue_0B < (1042 : ℚ) / 10 then get b "base0E" else get b "base09"),
   ("syntax_constant",
     if feat.hue_0B > (853 : ℚ) / 10 then get b "base09" else get b "base0A"),
   ("syntax_operator", get b "base04"),
   ("syntax_variable", get b "base05"),
   ("syntax_parameter", get b "base0D"),
   ("syntax_preproc", get b "base0E"),
   ("syntax_special", get b "base0C"),
   ("ui_accent",
     if feat.sat_08 > (696 : ℚ) / 10 then get b "base0D" else get b "base0C"),
   ("ui_border",
     if feat.sat_08 > (696 : ℚ) / 10 then get b "base02" else get b "base03"),
   ("ui_selection", get b "base02"),
   ("ui_float_bg", get b "base01"),
   ("ui_cursor_line", get b "base01"),
   ("git_add", get b "base0B"),
   ("git_change",
     if feat.dist_0B_0C_sq < ((1543 : ℚ) / 10) ^ 2 then get b "base0A" else get b "base09"),
   ("git_delete", get b "base08")]

/-- `generate_extended(base16)` of `generate_all_extended.py`. -/
def generate_extended (b : Base16) : Option (List (String × String)) :=
  (extract_features b).map (extendedList b)

/-- A parsed `theme.yml` as `main` reads it: the `base16` mapping (if the
key is present), the `extended` mapping (if present), and the
`extended_source` marker (if present). -/
structure Theme where
  base16 : Option (List (String × String))
  extended : Option (List (String × String))
  extended_source : Option String
deriving Repr, DecidableEq

/-- The command-line flags of `generate_all_extended.py`. -/
structure Args where
  markExisting : Bool
  regenerate : Bool
  dryRun : Bool
deriving Repr, DecidableEq

/-- What `main` does to one theme file. -/
inductive RunResult where
  | noWrite : RunResult
  | write : Theme → RunResult
  | crash : RunResult
deriving Repr, DecidableEq

/-- `has_extended = bool(extended and 'diagnostic_error' in extended)` with
`extended = theme.get('extended', {})`. -/
def hasExtended (t : Theme) : Bool :=
  match t.extended with
  | some e => !e.isEmpty && (e.lookup "diagnostic_error").isSome
  | none => false

/-- One iteration of the loop in `main` of `generate_all_extended.py`:
`noWrite` models a `continue` (or a dry run) that leaves the file untouched,
`write t` models saving the updated theme (in `--mark-existing` mode the
source inserts the marker line textually via `add_extended_source_marker`,
modelled as updating the tag), and `crash` models an unhandled exception
escaping from `generate_extended`. -/
def processTheme (a : Args) (t : Theme) : RunResult :=
  match t.base16 with
  | none => .noWrite
  | some bl =>
    if a.markExisting then
      if hasExtended t && t.extended_source.isNone then
        if a.dryRun then .noWrite
        else .write { t with extended_source := some "plugin" }
      else .noWrite
    else if t.extended_source == some "plugin" then .noWrite
    else if hasExtended t && t.extended_source.isNone then .noWrite
    else if a.regenerate && t.extended_source == some "generated" then
      if a.dryRun then .noWrite
      else
        match generate_extended (mkBase16 bl) with
        | some e => .write { t with extended := some e }
        | none => .crash
    else if !hasExtended t then
      if a.dryRun then .noWrite
      else
        match generate_extended (mkBase16 bl) with
        | some e => .write { t with extended := some e, extended_source := some "generated" }
        | none => .crash
    else .noWrite

end GenAll

/-- The closest-slot loop shared verbatim by `learn_mapping`
(`generate_extended_palette.py`) and both copies of `find_base16_match`
(`analyze_decision_boundaries.py`, `analyze_mapping_features.py`):
walk the 16 slot keys in order, tracking the strictly smallest distance
(so the first slot attaining the minimum wins).  The accumulator `best`
is `none` before the first iteration, modelling Python's
`best_dist = float('inf')` seed, which the first computed distance always
beats.  The outer `Option` models the `ValueError` raised by
`color_distance` on a malformed color. -/
def closestSlotGo (ext : String) (b : Base16) :
    List String → Option (String × ℚ) → Option (Option (String × ℚ))
  | [], best => some best
  | k :: ks, best =>
    match color_distance_sq ext (pyLower ((b k).getD "#000000")) with
    | none => none
    | some d =>
      closestSlotGo ext b ks
        (match best with
         | none => some (k, d)
         | some p => if d < p.2 then some (k, d) else some p)

/-- Run the closest-slot loop over the 16 slot keys. -/
def closestSlot (ext : String) (b : Base16) : Option (Option (String × ℚ)) :=
  closestSlotGo ext b slotKeys none

namespace NN

/-- Inner loop of `learn_mapping` over the neighbor's `extended` items, with
the accumulated `field → slot` mapping (an association list in insertion
order).  A field is recorded exactly when its best distance is below the
acceptance threshold `100` (squared here). -/
def learnGo (nb : Base16) :
    List (String × String) → List (String × String) → Option (List (String × String))
  | [], acc => some acc
  | (f, c) :: rest, acc =>
    match closestSlot (pyLower c) nb with
    | none => none
    | some none => learnGo nb rest acc
    | some (some p) =>
      learnGo nb rest (if p.2 < (100 : ℚ) ^ 2 then acc ++ [(f, p.1)] else acc)

/-- `learn_mapping(neighbor_base16, neighbor_extended)` of
`generate_extended_palette.py`. -/
def learn_mapping (nb : Base16) (next : List (String × String)) :
    Option (List (String × String)) :=
  learnGo nb next []

/-- `EXCLUDE_AS_NEIGHBORS` of `generate_extended_palette.py`. -/
def excludeAsNeighbors : List String :=
  ["github-dark-default", "github-dark-dimmed"]

/-- The neighbor-selection loop of `main` in `generate_extended_palette.py`
(leave-one-out): skip the query theme itself and the deny-listed themes,
keep the candidate with the strictly smallest palette distance.  The
source's `palette_distance` sums sixteen Euclidean square roots, an
irrational quantity; since the selection logic is independent of the
distance values, the embedding abstracts the evaluated distance of each
candidate as the function `dist`, and the theorems below quantify over
every such function (hence cover the source's distance).  `none` models
`best_neighbor = None` (no eligible neighbor). -/
def selectStep (dist : String → ℚ) (testName : String)
    (best : Option (String × ℚ)) (nb : String) : Option (String × ℚ) :=
  if nb = testName then best
  else if nb ∈ excludeAsNeighbors then best
  else
    match best with
    | none => some (nb, dist nb)
    | some p => if dist nb < p.2 then some (nb, dist nb) else best

/-- Fold the selection step over the candidate pool, starting from
`best_neighbor = None`. -/
def selectNeighbor (dist : String → ℚ) (testName : String)
    (pool : List String) : Option (String × ℚ) :=
  pool.foldl (selectStep dist testName) none

end NN

/-- First-occurrence deduplication: the key order of a Python dict built by
inserting while iterating (`defaultdict` tallies, `set` handed to a stable
sort).  The helper carries the set of already seen elements. -/
def firstDedupGo {α : Type} [DecidableEq α] (seen : List α) : List α → List α
  | [] => []
  | x :: xs =>
    if x ∈ seen then firstDedupGo seen xs
    else x :: firstDedupGo (x :: seen) xs

/-- Distinct elements of a list, first occurrences first. -/
def firstDedup {α : Type} [DecidableEq α] (l : List α) : List α :=
  firstDedupGo [] l

namespace Boundaries

/-- `find_base16_match(ext_color, base16)` of
`analyze_decision_boundaries.py`: the closest-slot loop with acceptance
threshold `50` (squared here); returns the inner `none` when the best
distance is not below the threshold, mirroring `return ... else None`.
The outer `Option` models the `ValueError` on malformed colors. -/
def find_base16_match (ext_color : String) (b : Base16) : Option (Option String) :=
  match closestSlot (pyLower ext_color) b with
  | none => none
  | some none => some none
  | some (some p) => some (if p.2 < (50 : ℚ) ^ 2 then some p.1 else none)

/-- The per-field slot-choice tally of `main` (a `defaultdict(int)` filled
in iteration order): pairs `(choice, multiplicity)` keyed by first
occurrence.  The input is the list of accepted slot choices, one per
theme, in corpus order. -/
def choiceCounts (cs : List String) : List (String × Nat) :=
  (firstDedup cs).map fun c => (c, cs.count c)

/-- `sorted(choice_counts.items(), key=lambda x: -x[1])`: a stable sort by
descending count.  Python's sort is stable, and `List.insertionSort` is
stable, so the two agree as functions. -/
def sortedCounts (cs : List String) : List (String × Nat) :=
  (choiceCounts cs).insertionSort fun p q => q.2 ≤ p.2

/-- `top2 = sorted(...)[:2]`. -/
def top2 (cs : List String) : List (String × Nat) :=
  (sortedCounts cs).take 2

/-- The three `continue` guards of `main` in `analyze_decision_boundaries.py`
that skip a field before the threshold search: fewer than 5 themes with an
accepted mapping, fewer than 2 distinct slot choices, or fewer than 2
themes supporting the second most frequent choice.  (When at least two
distinct choices exist, `top2` has a second entry, so the `none` arm is
unreachable; it is `true` because Python would have `continue`d earlier.) -/
def boundariesSkip (cs : List String) : Bool :=
  if cs.length < 5 then true
  else if (firstDedup cs).length < 2 then true
  else
    match (top2 cs)[1]? with
    | some q => q.2 < 2
    | none => true

/-- The feature names searched by the threshold search: the keys of this
script's own `extract_features` dict (`data[0]['features'].keys()`). -/
def featureNames : List String :=
  ["dist_0B_0C", "dist_09_0A", "dist_0D_0C", "hue_0B", "hue_0C",
   "sat_08", "sat_0B"]

/-- One row of `field_data` (the theme name, irrelevant to the search, is
dropped): the theme's feature dict and its accepted slot choice for the
field under analysis. -/
structure Sample where
  features : String → ℚ
  mapping : String

/-- Membership in the A/B-restricted training set
(`mapping not in [choice_a, choice_b]: continue`). -/
def isAB (a b : String) (s : Sample) : Bool :=
  s.mapping == a || s.mapping == b

/-- `total` of the accuracy loop: the number of A/B-restricted themes. -/
def totalAB (fd : List Sample) (a b : String) : Nat :=
  (fd.filter (isAB a b)).length

/-- The rule's prediction: `choice_a if val > thresh else choice_b` for
direction `'>'` (`dirGt = true`), `choice_a if val < thresh else choice_b`
for direction `'<'`. -/
def predOf (a b : String) (dirGt : Bool) (t v : ℚ) : String :=
  if dirGt then (if v > t then a else b) else (if v < t then a else b)

/-- `correct / total` over the A/B-restricted themes for one candidate
`(feature, direction, threshold)`.  (When `total = 0` this is `0/0 = 0` in
`ℚ`; the search step separately guards on `total > 0` as the source does.) -/
def accOf (fd : List Sample) (a b feat : String) (dirGt : Bool) (t : ℚ) : ℚ :=
  let rel := fd.filter (isAB a b)
  ((rel.filter fun s => predOf a b dirGt t (s.features feat) == s.mapping).length : ℚ)
    / (rel.length : ℚ)

/-- A candidate rule of the exhaustive search. -/
structure Cand where
  feat : String
  dirGt : Bool
  thresh : ℚ
deriving Repr, DecidableEq

/-- `all_values = sorted(set(values))`, then the midpoints
`(all_values[i] + all_values[i+1]) / 2` of consecutive pairs. -/
def midpoints (vs : List ℚ) : List ℚ :=
  let allValues := (firstDedup vs).insertionSort fun a b => a ≤ b
  (allValues.zip allValues.tail).map fun p => (p.1 + p.2) / 2

/-- The candidate grid enumerated by `main`, in iteration order: every
feature of `featureNames` (skipping features where one class has no
values), every midpoint threshold, both directions (`'>'` before `'<'`). -/
def candidatesFor (fd : List Sample) (a b : String) : List Cand :=
  featureNames.flatMap fun feat =>
    let va := (fd.filter fun s => s.mapping == a).map fun s => s.features feat
    let vb := (fd.filter fun s => s.mapping == b).map fun s => s.features feat
    if va.isEmpty || vb.isEmpty then []
    else
      (midpoints (va ++ vb)).flatMap fun t =>
        [⟨feat, true, t⟩, ⟨feat, false, t⟩]

/-- One step of the search: keep the incumbent unless this candidate's
accuracy strictly beats it (`if total > 0: ... if acc > best_accuracy`). -/
def searchStep (fd : List Sample) (a b : String)
    (s : ℚ × Option Cand) (c : Cand) : ℚ × Option Cand :=
  if 0 < totalAB fd a b ∧ accOf fd a b c.feat c.dirGt c.thresh > s.1
  then (accOf fd a b c.feat c.dirGt c.thresh, some c)
  else s

/-- The exhaustive threshold search of `main`: fold the candidate grid from
`best_accuracy = 0`, `best_rule = None`. -/
def bestRule (fd : List Sample) (a b : String) : ℚ × Option Cand :=
  (candidatesFor fd a b).foldl (searchStep fd a b) (0, none)

end Boundaries

namespace MapFeat

/-- The two skip guards of the per-field analysis loop in
`analyze_mapping_features.py`: fewer than 2 distinct choice groups, or the
most frequent choice strictly exceeding 85% of the themes
(`len(top_choices[0][1]) / total > 0.85`).  The input is the list of
accepted slot choices, one per theme, in corpus order; `total` is its
length and the head of the descending stable sort is the largest group. -/
def mfSkip (cs : List String) : Bool :=
  if (firstDedup cs).length < 2 then true
  else
    match ((Boundaries.choiceCounts cs).insertionSort fun p q => q.2 ≤ p.2)[0]? with
    | some p => decide ((p.2 : ℚ) / (cs.length : ℚ) > (85 : ℚ) / 100)
    | none => true

end MapFeat

/-- The sixteen lowercase hex digits (what `int(_, 16)` sees after the
sources lowercase their inputs). -/
def lowerHexChars : List Char :=
  ['0', '1', '2', '3', '4'] ++ ['5', '6', '7', '8', '9'] ++
    ['a', 'b', 'c', 'd', 'e', 'f']

/-- The gruvbox-dark-hard base16 palette from the corpus. -/
def gruvboxList : List (String × String) :=
  [("base00", "#1d2021"), ("base01", "#3c3836"), ("base02", "#504945"),
   ("base03", "#665c54"), ("base04", "#bdae93"), ("base05", "#d5c4a1"),
   ("base06", "#ebdbb2"), ("base07", "#fbf1c7"), ("base08", "#fb4934"),
   ("base09", "#fe8019"), ("base0A", "#fabd2f"), ("base0B", "#b8bb26"),
   ("base0C", "#8ec07c"), ("base0D", "#83a598"), ("base0E", "#d3869b"),
   ("base0F", "#d65d0e")]

/-- The gruvbox-dark-hard palette as a `base16` dict. -/
def gruvboxB : Base16 :=
  mkBase16 gruvboxList

/-- The same palette with `base08` written in uppercase hex: a valid palette
whose slot string is not lowercase. -/
def gruvboxUpperB : Base16 :=
  mkBase16
    [("base00", "#1d2021"), ("base01", "#3c3836"), ("base02", "#504945"),
     ("base03", "#665c54"), ("base04", "#bdae93"), ("base05", "#d5c4a1"),
     ("base06", "#ebdbb2"), ("base07", "#fbf1c7"), ("base08", "#FB4934"),
     ("base09", "#fe8019"), ("base0A", "#fabd2f"), ("base0B", "#b8bb26"),
     ("base0C", "#8ec07c"), ("base0D", "#83a598"), ("base0E", "#d3869b"),
     ("base0F", "#d65d0e")]

/-- The gruvbox palette in reversed key order: a syntactically different
dict with the same slot values. -/
def gruvboxRevB : Base16 :=
  mkBase16 gruvboxList.reverse

/-- A mapping whose present slot value is not hex at all. -/
def badB : Base16 :=
  mkBase16 [("base00", "zz0000")]

/-- A partial palette: one well-formed slot, the other 15 absent. -/
def sparseB : Base16 :=
  mkBase16 [("base08", "#fb4934")]

/-- A `base16` dict with no entries at all (every slot read falls back to
the default `'#000000'`). -/
def emptyB : Base16 :=
  fun _ => none

/-- A theme protected by `extended_source: plugin`. -/
def tPlugin : GenAll.Theme :=
  { base16 := some gruvboxList
    extended := some [("diagnostic_error", "#fb4934")]
    extended_source := some "plugin" }

/-- A theme tagged `generated` that already has an extended section. -/
def tGenerated : GenAll.Theme :=
  { base16 := some gruvboxList
    extended := some [("diagnostic_error", "#fb4934")]
    extended_source := some "generated" }

/-- A theme with a base16 palette and no extended section. -/
def tFresh : GenAll.Theme :=
  { base16 := some gruvboxList
    extended := none
    extended_source := none }

/-- A plain `generate` run: no flags. -/
def genArgs : GenAll.Args :=
  { markExisting := false, regenerate := false, dryRun := false }

/-- The extended palette the production generator produces for gruvbox. -/
def gruvboxExtended : List (String × String) :=
  (GenAll.generate_extended (mkBase16 gruvboxList)).getD []

/-- The extended palette the analysis generator produces for gruvbox. -/
def gruvboxRulesExtended : List (String × String) :=
  (GenRules.generate_extended_rules gruvboxB).getD []

/-- Two training samples for the threshold search: constant feature dicts
`100` and `50`, choices `base09` and `base0A`. -/
def fdPair : List Boundaries.Sample :=
  [⟨fun _ => 100, "base09"⟩, ⟨fun _ => 50, "base0A"⟩]

/-- Four themes split 2/2 between two slot choices. -/
def cs22 : List String :=
  ["base09", "base09", "base0A", "base0A"]

/-- Fourteen themes split 12/2 between two slot choices (85.7% dominance). -/
def cs122 : List String :=
  ["base09", "base09", "base09", "base09", "base09", "base09", "base09",
   "base09", "base09", "base09", "base09", "base09", "base0A", "base0A"]

/-! ### Character and parsing lemmas -/

/-- A hex digit's code point lies in one of the three digit ranges. -/
theorem hex_ranges {c : Char} (h : isHexDigit c = true) :
    (48 ≤ c.toNat ∧ c.toNat ≤ 57) ∨ (97 ≤ c.toNat ∧ c.toNat ≤ 102) ∨
      (65 ≤ c.toNat ∧ c.toNat ≤ 70) := by
  unfold isHexDigit hexDigitVal at h
  split_ifs at h with h1 h2 h3
  · exact Or.inl h1
  · exact Or.inr (Or.inl h2)
  · exact Or.inr (Or.inr h3)
  · simp at h

/-- Lowercasing a character with a hex-digit code point lands in
`lowerHexChars`. -/
theorem ofNat_toLower_mem {n : ℕ}
    (h : (48 ≤ n ∧ n ≤ 57) ∨ (97 ≤ n ∧ n ≤ 102) ∨ (65 ≤ n ∧ n ≤ 70)) :
    Char.toLower (Char.ofNat n) ∈ lowerHexChars := by
  rcases h with ⟨a, b⟩ | ⟨a, b⟩ | ⟨a, b⟩ <;> interval_cases n <;> decide

/-- Lowercasing a hex digit gives a lowercase hex digit. -/
theorem toLower_mem_lowerHex {c : Char} (h : isHexDigit c = true) :
    Char.toLower c ∈ lowerHexChars := by
  have hm := ofNat_toLower_mem (hex_ranges h)
  rwa [Char.ofNat_toNat] at hm

/-- The character-level facts `pyIntHex` needs about lowercase hex digits. -/
theorem lowerHex_char_facts {c : Char} (h : c ∈ lowerHexChars) :
    (hexDigitVal c).isSome = true ∧ isPySpace c = false ∧
      c ≠ '+' ∧ c ≠ '-' ∧ c ≠ '_' := by
  fin_cases h <;> decide

/-- `int(_, 16)` succeeds on a two-character lowercase hex string. -/
theorem pyIntHex_pair {a b : Char} (ha : a ∈ lowerHexChars)
    (hb : b ∈ lowerHexChars) : (pyIntHex [a, b]).isSome = true := by
  obtain ⟨ha1, ha2, ha3, ha4, ha5⟩ := lowerHex_char_facts ha
  obtain ⟨hb1, hb2, hb3, hb4, hb5⟩ := lowerHex_char_facts hb
  have hs : stripPySpaces [a, b] = [a, b] := by
    simp [stripPySpaces, List.dropWhile_cons, ha2, hb2]
  have hok : hexDigitsOk [a, b] = true := by
    simp [hexDigitsOk, hexTailOk, ha1, hb1, hb5]
  unfold pyIntHex
  rw [hs]
  simp [if_neg ha3, if_neg ha4, hok]

/-- A list of length six is literally six elements. -/
theorem exists_six {α : Type} {l : List α} (h : l.length = 6) :
    ∃ a b c d e f, l = [a, b, c, d, e, f] := by
  rcases l with _ | ⟨a, _ | ⟨b, _ | ⟨c, _ | ⟨d, _ | ⟨e, _ | ⟨f, _ | ⟨g, t⟩⟩⟩⟩⟩⟩⟩ <;>
    first
      | exact ⟨_, _, _, _, _, _, rfl⟩
      | simp_all

/-- A well-formed color string parses: `hex_to_rgb` succeeds on every
6-hex-digit color. -/
theorem hex_to_rgb_isSome_of_wf {s : String} (h : wellFormedColor s = true) :
    (hex_to_rgb s).isSome = true := by
  unfold wellFormedColor at h
  rw [Bool.and_eq_true] at h
  obtain ⟨hlen, hall⟩ := h
  have hlen6 : (s.toList.dropWhile (fun c => c = '#')).length = 6 :=
    of_decide_eq_true hlen
  obtain ⟨a, b, c, d, e, f, hds⟩ := exists_six hlen6
  rw [hds] at hall
  simp only [List.all_cons, List.all_nil, Bool.and_eq_true, Bool.and_true] at hall
  obtain ⟨hha, hhb, hhc, hhd, hhe, hhf⟩ := hall
  have pab := pyIntHex_pair (toLower_mem_lowerHex hha) (toLower_mem_lowerHex hhb)
  have pcd := pyIntHex_pair (toLower_mem_lowerHex hhc) (toLower_mem_lowerHex hhd)
  have pef := pyIntHex_pair (toLower_mem_lowerHex hhe) (toLower_mem_lowerHex hhf)
  obtain ⟨v1, hv1⟩ := Option.isSome_iff_exists.mp pab
  obtain ⟨v2, hv2⟩ := Option.isSome_iff_exists.mp pcd
  obtain ⟨v3, hv3⟩ := Option.isSome_iff_exists.mp pef
  unfold hex_to_rgb
  rw [hds]
  simp only [List.map_cons, List.map_nil, List.drop, List.take]
  rw [hv1, hv2, hv3]
  rfl

/-! ### Palette-level parsing lemmas -/

/-- In a valid palette, every slot read through `get(k, '#000000')`
parses. -/
theorem valid_parse {b : Base16} (h : validPalette b = true) :
    ∀ k ∈ slotKeys, (hex_to_rgb (getSlot b k)).isSome = true := by
  intro k hk
  unfold validPalette at h
  rw [List.all_eq_true] at h
  have hb := h k hk
  cases hbk : b k with
  | none => rw [hbk] at hb; simp at hb
  | some v =>
    rw [hbk] at hb
    have : getSlot b k = v := by unfold getSlot; rw [hbk]; rfl
    rw [this]
    exact hex_to_rgb_isSome_of_wf hb

/-- In a partial palette whose present slots are well-formed, every slot
read through `get(k, '#000000')` parses (absent slots read as the
well-formed default `'#000000'`). -/
theorem present_parse {b : Base16} (h : presentWellFormed b = true) :
    ∀ k ∈ slotKeys, (hex_to_rgb (getSlot b k)).isSome = true := by
  intro k hk
  unfold presentWellFormed at h
  rw [List.all_eq_true] at h
  have hb := h k hk
  cases hbk : b k with
  | none =>
    have : getSlot b k = "#000000" := by unfold getSlot; rw [hbk]; rfl
    rw [this]
    exact hex_to_rgb_isSome_of_wf (by rfl)
  | some v =>
    rw [hbk] at hb
    have : getSlot b k = v := by unfold getSlot; rw [hbk]; rfl
    rw [this]
    exact hex_to_rgb_isSome_of_wf hb

/-- When all 16 slot reads parse, `GenRules.extract_features` succeeds. -/
theorem extract_rules_isSome {b : Base16}
    (h : ∀ k ∈ slotKeys, (hex_to_rgb (getSlot b k)).isSome = true) :
    (GenRules.extract_features b).isSome = true := by
  obtain ⟨c00, h00⟩ := Option.isSome_iff_exists.mp (h "base00" (by decide))
  obtain ⟨c01, h01⟩ := Option.isSome_iff_exists.mp (h "base01" (by decide))
  obtain ⟨c02, h02⟩ := Option.isSome_iff_exists.mp (h "base02" (by decide))
  obtain ⟨c03, h03⟩ := Option.isSome_iff_exists.mp (h "base03" (by decide))
  obtain ⟨c04, h04⟩ := Option.isSome_iff_exists.mp (h "base04" (by decide))
  obtain ⟨c05, h05⟩ := Option.isSome_iff_exists.mp (h "base05" (by decide))
  obtain ⟨c06, h06⟩ := Option.isSome_iff_exists.mp (h "base06" (by decide))
  obtain ⟨c07, h07⟩ := Option.isSome_iff_exists.mp (h "base07" (by decide))
  obtain ⟨c08, h08⟩ := Option.isSome_iff_exists.mp (h "base08" (by decide))
  obtain ⟨c09, h09⟩ := Option.isSome_iff_exists.mp (h "base09" (by decide))
  obtain ⟨c0A, h0A⟩ := Option.isSome_iff_exists.mp (h "base0A" (by decide))
  obtain ⟨c0B, h0B⟩ := Option.isSome_iff_exists.mp (h "base0B" (by decide))
  obtain ⟨c0C, h0C⟩ := Option.isSome_iff_exists.mp (h "base0C" (by decide))
  obtain ⟨c0D, h0D⟩ := Option.isSome_iff_exists.mp (h "base0D" (by decide))
  obtain ⟨c0E, h0E⟩ := Option.isSome_iff_exists.mp (h "base0E" (by decide))
  obtain ⟨c0F, h0F⟩ := Option.isSome_iff_exists.mp (h "base0F" (by decide))
  unfold GenRules.extract_features
  rw [h00, h01, h02, h03, h04, h05, h06, h07, h08, h09, h0A, h0B, h0C, h0D,
    h0E, h0F]
  rfl

/-- When all 16 slot reads parse, `GenAll.extract_features` succeeds. -/
theorem extract_all_isSome {b : Base16}
    (h : ∀ k ∈ slotKeys, (hex_to_rgb (getSlot b k)).isSome = true) :
    (GenAll.extract_features b).isSome = true := by
  obtain ⟨c00, h00⟩ := Option.isSome_iff_exists.mp (h "base00" (by decide))
  obtain ⟨c01, h01⟩ := Option.isSome_iff_exists.mp (h "base01" (by decide))
  obtain ⟨c02, h02⟩ := Option.isSome_iff_exists.mp (h "base02" (by decide))
  obtain ⟨c03, h03⟩ := Option.isSome_iff_exists.mp (h "base03" (by decide))
  obtain ⟨c04, h04⟩ := Option.isSome_iff_exists.mp (h "base04" (by decide))
  obtain ⟨c05, h05⟩ := Option.isSome_iff_exists.mp (h "base05" (by decide))
  obtain ⟨c06, h06⟩ := Option.isSome_iff_exists.mp (h "base06" (by decide))
  obtain ⟨c07, h07⟩ := Option.isSome_iff_exists.mp (h "base07" (by decide))
  obtain ⟨c08, h08⟩ := Option.isSome_iff_exists.mp (h "base08" (by decide))
  obtain ⟨c09, h09⟩ := Option.isSome_iff_exists.mp (h "base09" (by decide))
  obtain ⟨c0A, h0A⟩ := Option.isSome_iff_exists.mp (h "base0A" (by decide))
  obtain ⟨c0B, h0B⟩ := Option.isSome_iff_exists.mp (h "base0B" (by decide))
  obtain ⟨c0C, h0C⟩ := Option.isSome_iff_exists.mp (h "base0C" (by decide))
  obtain ⟨c0D, h0D⟩ := Option.isSome_iff_exists.mp (h "base0D" (by decide))
  obtain ⟨c0E, h0E⟩ := Option.isSome_iff_exists.mp (h "base0E" (by decide))
  obtain ⟨c0F, h0F⟩ := Option.isSome_iff_exists.mp (h "base0F" (by decide))
  unfold GenAll.extract_features
  rw [h00, h01, h02, h03, h04, h05, h06, h07, h08, h09, h0A, h0B, h0C, h0D,
    h0E, h0F]
  rfl

/-- Unfolding `generate_extended_rules` when feature extraction succeeds. -/
theorem generate_rules_eq {b : Base16} {f : GenRules.Features}
    (hf : GenRules.extract_features b = some f) :
    GenRules.generate_extended_rules b = some (GenRules.extendedList b f) := by
  unfold GenRules.generate_extended_rules
  rw [hf]
  rfl

/-- Unfolding `generate_extended` when feature extraction succeeds. -/
theorem generate_all_eq {b : Base16} {f : GenAll.Features}
    (hf : GenAll.extract_features b = some f) :
    GenAll.generate_extended b = some (GenAll.extendedList b f) := by
  unfold GenAll.generate_extended
  rw [hf]
  rfl

/-- C7: the claim says `hex_to_rgb` fails on every wrong-length input, but
the slicing `hex_color[i:i+2]` silently tolerates many wrong lengths: the
five-character hex string `"fb493"` parses (its last slice is the single
digit `"3"`), returning `(251, 73, 3)`. -/
theorem C7_counterexample :
    wellFormedColor "fb493" = false ∧ hex_to_rgb "fb493" = some (251, 73, 3) :=
  ⟨rfl, rfl⟩

/-- C7 (amended): `hex_to_rgb` succeeds on every well-formed 6-hex-digit
color; it does fail on non-hex input (the error is Python's `ValueError` —
no `ColorFormatError` class exists in the code — and nothing catches it),
but not on every wrong-length input: strings whose three 2-character
slices all parse, such as 5-character or over-long hex strings, succeed. -/
theorem C7_amended :
    (∀ s : String, wellFormedColor s = true → (hex_to_rgb s).isSome = true) ∧
      hex_to_rgb "#zz0000" = none ∧ (hex_to_rgb "#abcdef0").isSome = true :=
  ⟨fun _ h => hex_to_rgb_isSome_of_wf h, rfl, rfl⟩

/-- C7 witness: the amended theorem evaluated at the concrete well-formed
color `"#fb4934"`. -/
theorem C7_witness :
    wellFormedColor "#fb4934" = true ∧ (hex_to_rgb "#fb4934").isSome = true :=
  ⟨rfl, C7_amended.1 "#fb4934" rfl⟩

/-- C1: the claim asserts byte-equality `generate(P).diagnostic_error ==
P.base08` for every valid palette; but the generator lowercases every slot
value it emits (`get` ends in `.lower()`), so for the valid palette equal
to gruvbox-dark-hard except `base08 = "#FB4934"` (uppercase hex) the
output is `"#fb4934"`, not the slot's byte string. -/
theorem C1_counterexample :
    validPalette gruvboxUpperB = true ∧
      GenRules.extField (GenRules.generate_extended_rules gruvboxUpperB)
          "diagnostic_error" ≠ some "#FB4934" := by
  refine ⟨rfl, ?_⟩
  intro hEq
  have hv : GenRules.extField (GenRules.generate_extended_rules gruvboxUpperB)
      "diagnostic_error" = some "#fb4934" := rfl
  rw [hv] at hEq
  exact absurd hEq (by decide)

/-- C1 (amended): for every valid 16-slot palette the rule-based generator
unconditionally maps `diagnostic_error` and `git_delete` to the
*lowercased* `base08` color and `diagnostic_ok` and `git_add` to the
*lowercased* `base0B` color (no feature or threshold involved); byte
equality with the raw slot value holds exactly when the slot string is
already lowercase, as in the gruvbox-dark-hard palette. -/
theorem C1_amended (b : Base16) (h : validPalette b = true) :
    GenRules.extField (GenRules.generate_extended_rules b) "diagnostic_error" =
        some (GenRules.get b "base08") ∧
      GenRules.extField (GenRules.generate_extended_rules b) "diagnostic_ok" =
        some (GenRules.get b "base0B") ∧
      GenRules.extField (GenRules.generate_extended_rules b) "git_add" =
        some (GenRules.get b "base0B") ∧
      GenRules.extField (GenRules.generate_extended_rules b) "git_delete" =
        some (GenRules.get b "base08") := by
  obtain ⟨f, hf⟩ := Option.isSome_iff_exists.mp (extract_rules_isSome (valid_parse h))
  have hg := generate_rules_eq hf
  refine ⟨?_, ?_, ?_, ?_⟩ <;> (unfold GenRules.extField; rw [hg]; rfl)

/-- C1 witness: for the gruvbox-dark-hard palette the universal fields are
exactly `#fb4934` and `#b8bb26`. -/
theorem C1_witness :
    validPalette gruvboxB = true ∧
      GenRules.extField (GenRules.generate_extended_rules gruvboxB)
          "diagnostic_error" = some "#fb4934" ∧
      GenRules.extField (GenRules.generate_extended_rules gruvboxB)
          "diagnostic_ok" = some "#b8bb26" :=
  by
  have e08 : GenRules.get gruvboxB "base08" = "#fb4934" := by decide
  have e0B : GenRules.get gruvboxB "base0B" = "#b8bb26" := by decide
  refine ⟨rfl, ?_, ?_⟩
  · have h := (C1_amended gruvboxB rfl).1
    rwa [e08] at h
  · have h := (C1_amended gruvboxB rfl).2.1
    rwa [e0B] at h

/-- The generator reads the palette only through `get(k, '#000000')` for the
16 slot keys: palettes with equal slot reads generate equal output. -/
theorem generate_rules_congr {b1 b2 : Base16}
    (h : ∀ k ∈ slotKeys, getSlot b1 k = getSlot b2 k) :
    GenRules.generate_extended_rules b1 = GenRules.generate_extended_rules b2 := by
  have g : ∀ k ∈ slotKeys, GenRules.get b1 k = GenRules.get b2 k := by
    intro k hk
    show pyLower (getSlot b1 k) = pyLower (getSlot b2 k)
    rw [h k hk]
  have hf : GenRules.extract_features b1 = GenRules.extract_features b2 := by
    unfold GenRules.extract_features
    rw [h "base00" (by decide), h "base01" (by decide), h "base02" (by decide),
      h "base03" (by decide), h "base04" (by decide), h "base05" (by decide),
      h "base06" (by decide), h "base07" (by decide), h "base08" (by decide),
      h "base09" (by decide), h "base0A" (by decide), h "base0B" (by decide),
      h "base0C" (by decide), h "base0D" (by decide), h "base0E" (by decide),
      h "base0F" (by decide)]
  have hl : ∀ f, GenRules.extendedList b1 f = GenRules.extendedList b2 f := by
    intro f
    unfold GenRules.extendedList
    rw [g "base08" (by decide), g "base0B" (by decide), g "base09" (by decide),
      g "base0A" (by decide), g "base0D" (by decide), g "base0C" (by decide),
      g "base0E" (by decide), g "base03" (by decide), g "base04" (by decide),
      g "base05" (by decide), g "base02" (by decide), g "base01" (by decide)]
  unfold GenRules.generate_extended_rules
  rw [hf]
  cases hx : GenRules.extract_features b2 with
  | none => rfl
  | some f => simp [hl f]

/-- C9: every color the rule-based generator emits is the lowercased hex
string of one of the 16 slot reads (each `get` ends in `.lower()`); in
particular, for the palette whose `base08` is the uppercase `"#FB4934"`,
the `git_delete` output is not byte-identical to the raw slot value. -/
theorem C9_lowercase :
    (∀ (b : Base16) (ext : List (String × String)),
        GenRules.generate_extended_rules b = some ext →
          ∀ p ∈ ext, p.2 ∈ slotKeys.map (GenRules.get b)) ∧
      GenRules.extField (GenRules.generate_extended_rules gruvboxUpperB)
          "git_delete" ≠ some (getSlot gruvboxUpperB "base08") := by
  constructor
  · intro b ext hg p hp
    unfold GenRules.generate_extended_rules at hg
    cases hx : GenRules.extract_features b with
    | none => rw [hx] at hg; exact absurd hg (by simp)
    | some f =>
      rw [hx] at hg
      simp only [Option.map_some', Option.some_inj] at hg
      subst hg
      have gm : ∀ k ∈ slotKeys, GenRules.get b k ∈ slotKeys.map (GenRules.get b) :=
        fun k hk => List.mem_map_of_mem _ hk
      unfold GenRules.extendedList at hp
      simp only [List.mem_cons, List.not_mem_nil, or_false] at hp
      obtain rfl | rfl | rfl | rfl | rfl | rfl | rfl | rfl | rfl | rfl | rfl |
        rfl | rfl | rfl | rfl | rfl | rfl | rfl | rfl | rfl | rfl | rfl | rfl |
        rfl | rfl := hp <;>
        first
          | exact gm _ (by decide)
          | (dsimp only; split <;> exact gm _ (by decide))
  · intro hEq
    have hv : GenRules.extField (GenRules.generate_extended_rules gruvboxUpperB)
        "git_delete" = some "#fb4934" := rfl
    have hs : getSlot gruvboxUpperB "base08" = "#FB4934" := rfl
    rw [hv, hs] at hEq
    exact absurd hEq (by decide)

/-- C9 witness: the lowercase property applied to the gruvbox output's
first field. -/
theorem C9_witness :
    GenRules.generate_extended_rules gruvboxB = some gruvboxRulesExtended ∧
      ("diagnostic_error", "#fb4934").2 ∈ slotKeys.map (GenRules.get gruvboxB) :=
  ⟨rfl, C9_lowercase.1 gruvboxB gruvboxRulesExtended rfl
    ("diagnostic_error", "#fb4934") (by decide)⟩

/-- C10: the claim says the generator never raises on any input mapping;
but a *present* malformed slot value makes `extract_features` call
`int(_, 16)` on non-hex text, and the resulting `ValueError` escapes
(modelled by `none`): the mapping `{base00: "zz0000"}` crashes both
generator copies. -/
theorem C10_counterexample :
    GenRules.generate_extended_rules badB = none ∧
      GenAll.generate_extended badB = none :=
  ⟨rfl, rfl⟩

/-- C10 (amended): the generator reads every absent slot as `'#000000'`
(replacing absent slots by that default changes nothing), and on every
mapping whose *present* slot values are well-formed colors it returns,
without raising, an extended palette whose keys are exactly the 25
standard fields; a present malformed value, however, raises. -/
theorem C10_amended :
    (∀ b : Base16, GenRules.generate_extended_rules b =
        GenRules.generate_extended_rules (totalize b)) ∧
      (∀ b : Base16, presentWellFormed b = true →
        (GenRules.generate_extended_rules b).map (fun l => l.map Prod.fst) =
          some GenRules.extendedFieldOrder) ∧
      GenRules.extendedFieldOrder.length = 25 := by
  refine ⟨?_, ?_, rfl⟩
  · intro b
    exact generate_rules_congr (fun k _ => rfl)
  · intro b hb
    obtain ⟨f, hf⟩ :=
      Option.isSome_iff_exists.mp (extract_rules_isSome (present_parse hb))
    rw [generate_rules_eq hf]
    rfl

/-- C10 witness: a palette with a single present slot generates the full
25-field extended palette. -/
theorem C10_witness :
    presentWellFormed sparseB = true ∧
      (GenRules.generate_extended_rules sparseB).map (fun l => l.map Prod.fst) =
        some GenRules.extendedFieldOrder :=
  ⟨rfl, C10_amended.2.1 sparseB rfl⟩

/-- C6: the rule-based generator is deterministic and depends on nothing
but the palette: re-evaluating on the same palette gives the same result
(the embedded function has no state to consult), and any two palettes
with identical slot entries generate identical extended palettes. -/
theorem C6_deterministic :
    (∀ b : Base16,
        GenRules.generate_extended_rules b = GenRules.generate_extended_rules b) ∧
      (∀ b1 b2 : Base16, (∀ k ∈ slotKeys, b1 k = b2 k) →
        GenRules.generate_extended_rules b1 = GenRules.generate_extended_rules b2) :=
  ⟨fun _ => rfl,
    fun b1 b2 h =>
      generate_rules_congr (fun k hk => by unfold getSlot; rw [h k hk])⟩

/-- C6 witness: the gruvbox palette and its reversed association list (a
different dict with the same slot entries) generate identical output. -/
theorem C6_witness :
    (∀ k ∈ slotKeys, gruvboxB k = gruvboxRevB k) ∧
      GenRules.generate_extended_rules gruvboxB =
        GenRules.generate_extended_rules gruvboxRevB :=
  ⟨by decide, C6_deterministic.2 gruvboxB gruvboxRevB (by decide)⟩

/-- C2: the claim says a generate run (no force override exists in the CLI)
updates exactly the themes tagged `generated` or lacking an extended
section; but a `generated`-tagged theme that *has* an extended section is
left untouched by a plain generate run (only `--regenerate` rewrites it),
so the claim's update set is wrong at this concrete theme. -/
theorem C2_counterexample :
    tGenerated.extended_source = some "generated" ∧
      GenAll.hasExtended tGenerated = true ∧
      GenAll.processTheme genArgs tGenerated = GenAll.RunResult.noWrite :=
  ⟨rfl, rfl, rfl⟩

/-- C2 (amended): in any run without `--mark-existing` (generate or
regenerate, dry or not) a theme tagged `extended_source: plugin` is never
written — the refusal is unconditional, there is no force flag; and a
plain generate run writes exactly the themes that have a `base16` mapping,
are not plugin-tagged, and lack an extended section (each is written with
the generated palette and the `generated` tag); every theme with an
existing extended section — including `generated`-tagged ones — is left
byte-identical. -/
theorem C2_amended :
    (∀ (r d : Bool) (t : GenAll.Theme), t.extended_source = some "plugin" →
        GenAll.processTheme ⟨false, r, d⟩ t = GenAll.RunResult.noWrite) ∧
      (∀ t : GenAll.Theme,
        GenAll.processTheme genArgs t ≠ GenAll.RunResult.noWrite →
          GenAll.hasExtended t = false) ∧
      (∀ (t : GenAll.Theme) (bl e : List (String × String)),
        t.base16 = some bl → GenAll.hasExtended t = false →
        t.extended_source ≠ some "plugin" →
        GenAll.generate_extended (mkBase16 bl) = some e →
        GenAll.processTheme genArgs t =
          GenAll.RunResult.write
            { t with extended := some e, extended_source := some "generated" }) := by
  refine ⟨?_, ?_, ?_⟩
  · intro r d t hp
    unfold GenAll.processTheme
    cases hb : t.base16 with
    | none => rfl
    | some bl => simp [hp]
  · intro t hw
    by_contra hne
    have hE : GenAll.hasExtended t = true := by
      cases hhe : GenAll.hasExtended t with
      | false => exact absurd hhe hne
      | true => rfl
    apply hw
    unfold GenAll.processTheme
    cases hb : t.base16 with
    | none => rfl
    | some bl =>
      simp only [genArgs, hE, Bool.true_and, Bool.false_and, Bool.not_true,
        if_false, Bool.false_eq_true]
      split_ifs <;> rfl
  · intro t bl e hb hE hp hg
    have hbe : (t.extended_source == some "plugin") = false :=
      beq_eq_false_iff_ne.mpr hp
    simp [GenAll.processTheme, genArgs, hb, hE, hbe, hg]

/-- C2 witness: the plugin-tagged theme is skipped; the fresh theme (no
extended section) is written with the generated palette and tag. -/
theorem C2_witness :
    tPlugin.extended_source = some "plugin" ∧
      GenAll.processTheme genArgs tPlugin = GenAll.RunResult.noWrite ∧
      tFresh.base16 = some gruvboxList ∧ GenAll.hasExtended tFresh = false ∧
      GenAll.generate_extended (mkBase16 gruvboxList) = some gruvboxExtended ∧
      GenAll.processTheme genArgs tFresh =
        GenAll.RunResult.write
          { tFresh with extended := some gruvboxExtended,
                        extended_source := some "generated" } :=
  ⟨rfl, C2_amended.1 false false tPlugin rfl, rfl, rfl, rfl,
    C2_amended.2.2 tFresh gruvboxList gruvboxExtended rfl rfl (by decide) rfl⟩

/-- C3: the claim says `learn_mapping` records a field exactly when the
RuleLearner's closest-slot search accepts the color; but `learn_mapping`
accepts below distance `100` while `find_base16_match` accepts below `50`:
the color `#3c0000` (distance 60 from the all-black default palette) is
recorded by `learn_mapping` yet rejected by `find_base16_match`. -/
theorem C3_counterexample :
    NN.learn_mapping emptyB [("diagnostic_error", "#3c0000")] =
        some [("diagnostic_error", "base00")] ∧
      Boundaries.find_base16_match "#3c0000" emptyB = some none :=
  ⟨rfl, rfl⟩

/-- C3 (amended): the two acceptance thresholds differ (`100` in
`learn_mapping`, `50` in `find_base16_match`), so agreement holds in one
direction only: whenever the RuleLearner's search accepts a ground-truth
color as slot-derived, `learn_mapping` records the same slot for that
field; colors at distance in `[50, 100)` are recorded by `learn_mapping`
but excluded by the RuleLearner. -/
theorem C3_amended (nb : Base16) (f c k : String)
    (h : Boundaries.find_base16_match c nb = some (some k)) :
    NN.learn_mapping nb [(f, c)] = some [(f, k)] := by
  unfold Boundaries.find_base16_match at h
  cases hc : closestSlot (pyLower c) nb with
  | none => rw [hc] at h; exact absurd h (by simp)
  | some o =>
    rw [hc] at h
    cases o with
    | none => exact absurd h (by simp)
    | some p =>
      simp only [Option.some_inj] at h
      by_cases hlt : p.2 < (50 : ℚ) ^ 2
      · rw [if_pos hlt] at h
        have hk : p.1 = k := by
          simpa using h
        have h100 : p.2 < (100 : ℚ) ^ 2 := lt_trans hlt (by norm_num)
        unfold NN.learn_mapping
        simp only [NN.learnGo, hc]
        rw [if_pos h100]
        simp [hk]
      · rw [if_neg hlt] at h
        exact absurd h (by simp)

/-- C3 witness: an exact slot color (distance 0) is accepted by the
RuleLearner search and recorded identically by `learn_mapping`. -/
theorem C3_witness :
    Boundaries.find_base16_match "#000000" emptyB = some (some "base00") ∧
      NN.learn_mapping emptyB [("syntax_string", "#000000")] =
        some [("syntax_string", "base00")] :=
  ⟨rfl, C3_amended emptyB "syntax_string" "#000000" "base00" rfl⟩

/-- One fold step of the neighbor selection either keeps the accumulator or
switches to an eligible candidate from the pool. -/
theorem selectNeighbor_fold {dist : String → ℚ} {testName : String} :
    ∀ (pool : List String) (acc : Option (String × ℚ)) (p : String × ℚ),
      pool.foldl (NN.selectStep dist testName) acc = some p →
        acc = some p ∨
          (p.1 ∈ pool ∧ p.1 ≠ testName ∧ p.1 ∉ NN.excludeAsNeighbors) := by
  intro pool
  induction pool with
  | nil => intro acc p h; exact Or.inl h
  | cons nb rest ih =>
    intro acc p h
    rw [List.foldl_cons] at h
    rcases ih (NN.selectStep dist testName acc nb) p h with hstep | hrest
    · unfold NN.selectStep at hstep
      split_ifs at hstep with h1 h2
      · exact Or.inl hstep
      · exact Or.inl hstep
      · cases acc with
        | none =>
          simp only [Option.some_inj] at hstep
          refine Or.inr ⟨?_, ?_, ?_⟩
          · rw [← hstep]; exact List.mem_cons_self nb rest
          · rw [← hstep]; exact h1
          · rw [← hstep]; exact h2
        | some q =>
          dsimp only at hstep
          by_cases hd : dist nb < q.2
          · rw [if_pos hd] at hstep
            simp only [Option.some_inj] at hstep
            refine Or.inr ⟨?_, ?_, ?_⟩
            · rw [← hstep]; exact List.mem_cons_self nb rest
            · rw [← hstep]; exact h1
            · rw [← hstep]; exact h2
          · rw [if_neg hd] at hstep
            exact Or.inl hstep
    · exact Or.inr ⟨List.mem_cons_of_mem nb hrest.1, hrest.2⟩

/-- C8: whatever the distance values, the neighbor the leave-one-out loop
selects is never the query theme itself, always comes from the candidate
pool, and is never a deny-listed theme. -/
theorem C8_no_self (dist : String → ℚ) (testName : String)
    (pool : List String) (p : String × ℚ)
    (h : NN.selectNeighbor dist testName pool = some p) :
    p.1 ≠ testName ∧ p.1 ∈ pool ∧ p.1 ∉ NN.excludeAsNeighbors := by
  unfold NN.selectNeighbor at h
  rcases selectNeighbor_fold pool none p h with hacc | hgood
  · exact absurd hacc (by simp)
  · exact ⟨hgood.2.1, hgood.1, hgood.2.2⟩

/-- C8 witness: with the query theme present in the pool, the loop selects
the other candidate, not the query itself. -/
theorem C8_witness :
    NN.selectNeighbor (fun _ => 0) "a" ["a", "b"] = some ("b", 0) ∧
      (("b", (0 : ℚ)).1 ≠ "a" ∧ ("b", (0 : ℚ)).1 ∈ ["a", "b"] ∧
        ("b", (0 : ℚ)).1 ∉ NN.excludeAsNeighbors) :=
  ⟨rfl, C8_no_self (fun _ => 0) "a" ["a", "b"] ("b", 0) rfl⟩

/-- With no A/B-restricted themes the accuracy is `0/0 = 0` in `ℚ`. -/
theorem accOf_total_zero {fd : List Boundaries.Sample} {a b feat : String}
    {dirGt : Bool} {t : ℚ} (h : Boundaries.totalAB fd a b = 0) :
    Boundaries.accOf fd a b feat dirGt t = 0 := by
  unfold Boundaries.totalAB at h
  unfold Boundaries.accOf
  rw [List.length_eq_zero.mp h]
  simp

/-- Invariant of the search fold: the running best only grows, dominates
every candidate already seen, and is either the initial state or the
accuracy of some seen candidate together with that candidate. -/
theorem bestRule_fold (fd : List Boundaries.Sample) (a b : String) :
    ∀ (cs : List Boundaries.Cand) (init : ℚ × Option Boundaries.Cand),
      0 ≤ init.1 →
      0 ≤ (cs.foldl (Boundaries.searchStep fd a b) init).1 ∧
        init.1 ≤ (cs.foldl (Boundaries.searchStep fd a b) init).1 ∧
        (∀ c ∈ cs, Boundaries.accOf fd a b c.feat c.dirGt c.thresh ≤
          (cs.foldl (Boundaries.searchStep fd a b) init).1) ∧
        (cs.foldl (Boundaries.searchStep fd a b) init = init ∨
          ∃ c ∈ cs, cs.foldl (Boundaries.searchStep fd a b) init =
            (Boundaries.accOf fd a b c.feat c.dirGt c.thresh, some c)) := by
  intro cs
  induction cs with
  | nil =>
    intro init h0
    exact ⟨h0, le_refl _, by simp, Or.inl rfl⟩
  | cons c cs ih =>
    intro init h0
    rw [List.foldl_cons]
    by_cases hcond : 0 < Boundaries.totalAB fd a b ∧
        Boundaries.accOf fd a b c.feat c.dirGt c.thresh > init.1
    · have hs : Boundaries.searchStep fd a b init c =
          (Boundaries.accOf fd a b c.feat c.dirGt c.thresh, some c) := by
        unfold Boundaries.searchStep
        rw [if_pos hcond]
      rw [hs]
      have h0' : (0 : ℚ) ≤
          (Boundaries.accOf fd a b c.feat c.dirGt c.thresh, some c).1 :=
        le_of_lt (lt_of_le_of_lt h0 hcond.2)
      obtain ⟨r0, rle, rall, rcase⟩ := ih _ h0'
      refine ⟨r0, le_trans (le_of_lt hcond.2) rle, ?_, ?_⟩
      · intro c' hc'
        rcases List.mem_cons.mp hc' with rfl | hmem
        · exact rle
        · exact rall c' hmem
      · rcases rcase with req | ⟨c', hc', heq⟩
        · exact Or.inr ⟨c, List.mem_cons_self c cs, by rw [req]⟩
        · exact Or.inr ⟨c', List.mem_cons_of_mem c hc', heq⟩
    · have hs : Boundaries.searchStep fd a b init c = init := by
        unfold Boundaries.searchStep
        rw [if_neg hcond]
      rw [hs]
      obtain ⟨r0, rle, rall, rcase⟩ := ih init h0
      refine ⟨r0, rle, ?_, ?_⟩
      · intro c' hc'
        rcases List.mem_cons.mp hc' with rfl | hmem
        · rcases not_and_or.mp hcond with htot | hacc
          · rw [accOf_total_zero (Nat.eq_zero_of_not_pos htot)]
            exact r0
          · exact le_trans (not_lt.mp hacc) rle
        · exact rall c' hmem
      · rcases rcase with req | ⟨c', hc', heq⟩
        · exact Or.inl req
        · exact Or.inr ⟨c', List.mem_cons_of_mem c hc', heq⟩

/-- C4: whenever the exhaustive search records a rule, that rule's training
accuracy equals the recorded best accuracy, and no candidate on the
searched grid — any feature of this script's `FeatureVector`, any midpoint
of consecutive sorted observed values, either direction — achieves
strictly more. -/
theorem C4_best_rule (fd : List Boundaries.Sample) (a b : String)
    (c : Boundaries.Cand) (hc : c ∈ Boundaries.candidatesFor fd a b)
    (r : Boundaries.Cand) (hr : (Boundaries.bestRule fd a b).2 = some r) :
    Boundaries.accOf fd a b c.feat c.dirGt c.thresh ≤
        (Boundaries.bestRule fd a b).1 ∧
      (Boundaries.bestRule fd a b).1 =
        Boundaries.accOf fd a b r.feat r.dirGt r.thresh := by
  obtain ⟨h0, hle, hall, hcase⟩ :=
    bestRule_fold fd a b (Boundaries.candidatesFor fd a b) (0, none) (le_refl 0)
  constructor
  · exact hall c hc
  · rcases hcase with heq | ⟨c', hc', heq⟩
    · unfold Boundaries.bestRule at hr
      rw [heq] at hr
      exact absurd hr (by simp)
    · unfold Boundaries.bestRule at hr ⊢
      rw [heq] at hr ⊢
      obtain rfl : c' = r := by simpa using hr
      rfl

set_option maxRecDepth 4000 in
/-- C4 witness: on a concrete two-sample training set the recorded rule
(first feature, direction `>`, midpoint 75) attains accuracy 1 and
dominates the candidate on another feature. -/
theorem C4_witness :
    (⟨"hue_0B", false, 75⟩ : Boundaries.Cand) ∈
        Boundaries.candidatesFor fdPair "base09" "base0A" ∧
      (Boundaries.bestRule fdPair "base09" "base0A").2 =
        some ⟨"dist_0B_0C", true, 75⟩ ∧
      (Boundaries.accOf fdPair "base09" "base0A" "hue_0B" false 75 ≤
          (Boundaries.bestRule fdPair "base09" "base0A").1 ∧
        (Boundaries.bestRule fdPair "base09" "base0A").1 =
          Boundaries.accOf fdPair "base09" "base0A" "dist_0B_0C" true 75) :=
  ⟨of_decide_eq_true (by with_unfolding_all rfl), by with_unfolding_all rfl,
    C4_best_rule fdPair "base09" "base0A" ⟨"hue_0B", false, 75⟩
      (of_decide_eq_true (by with_unfolding_all rfl))
      ⟨"dist_0B_0C", true, 75⟩ (by with_unfolding_all rfl)⟩

/-- Membership in the dedup helper: seen elements are dropped. -/
theorem firstDedupGo_mem {α : Type} [DecidableEq α] :
    ∀ (l seen : List α) (x : α),
      x ∈ firstDedupGo seen l ↔ x ∈ l ∧ x ∉ seen := by
  intro l
  induction l with
  | nil => intro seen x; simp [firstDedupGo]
  | cons a t ih =>
    intro seen x
    unfold firstDedupGo
    by_cases ha : a ∈ seen
    · rw [if_pos ha, ih]
      constructor
      · rintro ⟨hx, hs⟩
        exact ⟨List.mem_cons_of_mem a hx, hs⟩
      · rintro ⟨hx, hs⟩
        rcases List.mem_cons.mp hx with rfl | hx2
        · exact absurd ha hs
        · exact ⟨hx2, hs⟩
    · rw [if_neg ha]
      constructor
      · intro hx
        rcases List.mem_cons.mp hx with rfl | hx2
        · exact ⟨List.mem_cons_self _ _, ha⟩
        · obtain ⟨h1, h2⟩ := (ih (a :: seen) x).mp hx2
          exact ⟨List.mem_cons_of_mem a h1,
            fun hs => h2 (List.mem_cons_of_mem a hs)⟩
      · rintro ⟨hx, hs⟩
        rcases List.mem_cons.mp hx with rfl | hx2
        · exact List.mem_cons_self _ _
        · by_cases hxa : x = a
          · subst hxa
            exact List.mem_cons_self _ _
          · refine List.mem_cons_of_mem a ((ih (a :: seen) x).mpr ⟨hx2, ?_⟩)
            intro hmem
            exact (List.mem_cons.mp hmem).elim hxa hs

/-- `firstDedup` keeps exactly the elements of the list. -/
theorem firstDedup_mem {α : Type} [DecidableEq α] (l : List α) (x : α) :
    x ∈ firstDedup l ↔ x ∈ l := by
  unfold firstDedup
  rw [firstDedupGo_mem]
  simp

/-- The dedup helper never repeats an element. -/
theorem firstDedupGo_nodup {α : Type} [DecidableEq α] :
    ∀ (l seen : List α), (firstDedupGo seen l).Nodup := by
  intro l
  induction l with
  | nil => intro seen; simp [firstDedupGo]
  | cons a t ih =>
    intro seen
    unfold firstDedupGo
    by_cases ha : a ∈ seen
    · rw [if_pos ha]
      exact ih seen
    · rw [if_neg ha]
      refine List.nodup_cons.mpr ⟨?_, ih (a :: seen)⟩
      intro hmem
      exact ((firstDedupGo_mem t (a :: seen) a).mp hmem).2 (List.mem_cons_self _ _)

/-- `firstDedup` has no duplicates. -/
theorem firstDedup_nodup {α : Type} [DecidableEq α] (l : List α) :
    (firstDedup l).Nodup :=
  firstDedupGo_nodup l []

/-- A tally entry is a choice of the corpus paired with its count. -/
theorem choiceCounts_mem {cs : List String} {p : String × Nat}
    (h : p ∈ Boundaries.choiceCounts cs) : p.1 ∈ cs ∧ p.2 = cs.count p.1 := by
  unfold Boundaries.choiceCounts at h
  obtain ⟨c, hc, hp⟩ := List.mem_map.mp h
  rw [← hp]
  exact ⟨(firstDedup_mem cs c).mp hc, rfl⟩

/-- Every choice occurring in the corpus has a tally entry. -/
theorem choiceCounts_mem_of {cs : List String} {c : String} (h : c ∈ cs) :
    (c, cs.count c) ∈ Boundaries.choiceCounts cs :=
  List.mem_map.mpr ⟨c, (firstDedup_mem cs c).mpr h, rfl⟩

/-- Tally keys are distinct. -/
theorem choiceCounts_keys_nodup (cs : List String) :
    ((Boundaries.choiceCounts cs).map Prod.fst).Nodup := by
  unfold Boundaries.choiceCounts
  rw [List.map_map]
  have he : (Prod.fst ∘ fun c => (c, List.count c cs)) = fun c : String => c :=
    rfl
  rw [he]
  simpa using firstDedup_nodup cs

/-- The stable sort permutes the tally. -/
theorem sortedCounts_perm (cs : List String) :
    (Boundaries.sortedCounts cs).Perm (Boundaries.choiceCounts cs) :=
  List.perm_insertionSort _ _

/-- The sorted tally is descending by count. -/
theorem sortedCounts_sorted (cs : List String) :
    List.Pairwise (fun p q : String × Nat => q.2 ≤ p.2)
      (Boundaries.sortedCounts cs) := by
  haveI : IsTotal (String × Nat) (fun p q => q.2 ≤ p.2) :=
    ⟨fun a b => le_total b.2 a.2⟩
  haveI : IsTrans (String × Nat) (fun p q => q.2 ≤ p.2) :=
    ⟨fun _ _ _ hab hbc => le_trans hbc hab⟩
  exact List.sorted_insertionSort _ _

/-- Distinct keys survive the sort. -/
theorem sortedCounts_pairwise_keys (cs : List String) :
    List.Pairwise (fun p q : String × Nat => p.1 ≠ q.1)
      (Boundaries.sortedCounts cs) := by
  have hn : ((Boundaries.sortedCounts cs).map Prod.fst).Nodup :=
    (((sortedCounts_perm cs).map Prod.fst).nodup_iff).mpr
      (choiceCounts_keys_nodup cs)
  exact List.pairwise_map.mp hn

/-- The sorted tally has one entry per distinct choice. -/
theorem sortedCounts_length (cs : List String) :
    (Boundaries.sortedCounts cs).length = (firstDedup cs).length := by
  rw [(sortedCounts_perm cs).length_eq]
  unfold Boundaries.choiceCounts
  rw [List.length_map]

/-- Two distinct members force length at least two. -/
theorem two_le_length_of_two_mem {α : Type} {l : List α} {x y : α}
    (hx : x ∈ l) (hy : y ∈ l) (hxy : x ≠ y) : 2 ≤ l.length := by
  rcases l with _ | ⟨a, _ | ⟨b, t⟩⟩
  · simp at hx
  · simp at hx hy
    exact absurd (hx.trans hy.symm) hxy
  · simp [List.length_cons]

/-- C5: the claim says the threshold search is skipped exactly when one
choice covers at least 85% of the themes or the minority choice has fewer
than 2 supporters; but for four themes split 2/2 — no 85% dominance, two
supporters on each side — the script still skips the field (its actual
first guard is `len(field_data) < 5`), so the claimed equivalence fails. -/
theorem C5_counterexample :
    Boundaries.boundariesSkip cs22 = true ∧
      (∀ x ∈ cs22, ((cs22.count x : ℚ) / (cs22.length : ℚ)) < 85 / 100) ∧
      ("base09" : String) ≠ "base0A" ∧
      2 ≤ cs22.count "base09" ∧ 2 ≤ cs22.count "base0A" :=
  ⟨by decide, of_decide_eq_true (by with_unfolding_all rfl), by decide,
    by decide, by decide⟩

/-- C5 (amended): `analyze_decision_boundaries` runs the threshold search
for a field exactly when at least 5 themes have an accepted mapping and
two distinct slot choices each have at least 2 supporters (`< 5` themes,
`< 2` distinct choices, or a minority below 2 all skip it); the
≥85%-dominance skip is not in this script at all — it lives in
`analyze_mapping_features`, with a strict `> 0.85` test, as the 12-vs-2
corpus shows: dominance 12/14 > 85% is skipped there yet still searched
here. -/
theorem C5_amended :
    (∀ cs : List String, Boundaries.boundariesSkip cs = false ↔
        (5 ≤ cs.length ∧
          ∃ x y, x ≠ y ∧ 2 ≤ cs.count x ∧ 2 ≤ cs.count y)) ∧
      MapFeat.mfSkip cs122 = true ∧
      Boundaries.boundariesSkip cs122 = false ∧
      ((cs122.count "base09" : ℚ) / (cs122.length : ℚ) > 85 / 100) := by
  refine ⟨?_, by with_unfolding_all rfl, by decide,
    of_decide_eq_true (by with_unfolding_all rfl)⟩
  intro cs
  constructor
  · intro h
    unfold Boundaries.boundariesSkip at h
    split_ifs at h with h5 h2
    cases hm : (Boundaries.top2 cs)[1]? with
      | none => rw [hm] at h; exact absurd h (by simp)
      | some q =>
        rw [hm] at h
        simp only [decide_eq_false_iff_not, not_lt] at h
        have hlen2 : 2 ≤ (Boundaries.sortedCounts cs).length := by
          rw [sortedCounts_length]
          omega
        have h1lt : 1 < (Boundaries.sortedCounts cs).length := by omega
        have h0lt : 0 < (Boundaries.sortedCounts cs).length := by omega
        have hm1 : (Boundaries.sortedCounts cs)[1]? = some q := by
          unfold Boundaries.top2 at hm
          rwa [List.getElem?_take, if_pos (by omega)] at hm
        have hq : (Boundaries.sortedCounts cs)[1] = q := by
          rw [List.getElem?_eq_getElem h1lt] at hm1
          exact Option.some_inj.mp hm1
        have hle : ((Boundaries.sortedCounts cs)[1]).2 ≤
            ((Boundaries.sortedCounts cs)[0]).2 :=
          List.pairwise_iff_getElem.mp (sortedCounts_sorted cs) 0 1 h0lt h1lt
            (by omega)
        have hne : ((Boundaries.sortedCounts cs)[0]).1 ≠
            ((Boundaries.sortedCounts cs)[1]).1 :=
          List.pairwise_iff_getElem.mp (sortedCounts_pairwise_keys cs) 0 1
            h0lt h1lt (by omega)
        have hmem0 := choiceCounts_mem
          ((sortedCounts_perm cs).mem_iff.mp (List.getElem_mem h0lt))
        have hmem1 := choiceCounts_mem
          ((sortedCounts_perm cs).mem_iff.mp (List.getElem_mem h1lt))
        refine ⟨by omega, ((Boundaries.sortedCounts cs)[0]).1,
          ((Boundaries.sortedCounts cs)[1]).1, hne, ?_, ?_⟩
        · rw [← hmem0.2]
          rw [hq] at hle
          omega
        · rw [← hmem1.2, hq]
          omega
  · rintro ⟨h5, x, y, hxy, hx2, hy2⟩
    have hx : x ∈ cs := List.count_pos_iff.mp (by omega)
    have hy : y ∈ cs := List.count_pos_iff.mp (by omega)
    have hd2 : 2 ≤ (firstDedup cs).length :=
      two_le_length_of_two_mem ((firstDedup_mem cs x).mpr hx)
        ((firstDedup_mem cs y).mpr hy) hxy
    unfold Boundaries.boundariesSkip
    rw [if_neg (by omega : ¬ cs.length < 5),
      if_neg (by omega : ¬ (firstDedup cs).length < 2)]
    have hlen2 : 2 ≤ (Boundaries.sortedCounts cs).length := by
      rw [sortedCounts_length]
      exact hd2
    have h1lt : 1 < (Boundaries.sortedCounts cs).length := by omega
    have hm1 : (Boundaries.top2 cs)[1]? =
        some ((Boundaries.sortedCounts cs)[1]) := by
      unfold Boundaries.top2
      rw [List.getElem?_take, if_pos (by omega),
        List.getElem?_eq_getElem h1lt]
    rw [hm1]
    have hkey : 2 ≤ ((Boundaries.sortedCounts cs)[1]).2 := by
      obtain ⟨i, hi, hie⟩ := List.getElem_of_mem
        ((sortedCounts_perm cs).mem_iff.mpr (choiceCounts_mem_of hx))
      obtain ⟨j, hj, hje⟩ := List.getElem_of_mem
        ((sortedCounts_perm cs).mem_iff.mpr (choiceCounts_mem_of hy))
      have hij : i ≠ j := by
        intro hij
        subst hij
        rw [hie] at hje
        exact hxy (congrArg Prod.fst hje)
      have hone : 1 ≤ i ∨ 1 ≤ j := by omega
      have hdom : ∀ (m : Nat) (hm2 : m < (Boundaries.sortedCounts cs).length),
          1 ≤ m → ((Boundaries.sortedCounts cs)[m]).2 ≤
            ((Boundaries.sortedCounts cs)[1]).2 := by
        intro m hm2 h1m
        rcases eq_or_lt_of_le h1m with heq | hlt
        · subst heq
          exact le_refl _
        · exact List.pairwise_iff_getElem.mp (sortedCounts_sorted cs) 1 m
            h1lt hm2 hlt
      rcases hone with h1i | h1j
      · have := hdom i hi h1i
        rw [hie] at this
        omega
      · have := hdom j hj h1j
        rw [hje] at this
        omega
    simp only [decide_eq_false_iff_not, not_lt]
    omega

/-- C5 witness: for the 12-vs-2 corpus the characterization applies in
both directions: the threshold search is not skipped, with the two
support facts. -/
theorem C5_witness :
    Boundaries.boundariesSkip cs122 = false ∧
      (5 ≤ cs122.length ∧
        ∃ x y, x ≠ y ∧ 2 ≤ cs122.count x ∧ 2 ≤ cs122.count y) :=
  ⟨(C5_amended.1 cs122).mpr
      ⟨by decide, "base09", "base0A", by decide, by decide, by decide⟩,
    (C5_amended.1 cs122).mp (by decide)⟩
